import Mathlib

/-! Verification of the yahoo-finance-server fan-out-and-cache layer.

Shallow embedding of the request-fan-out-and-cache core of the
yahoo-finance-server repository, together with proofs and refutations of
the behavioural claims made about it.

The embedded code:
* the `GET /quote/:symbols` handler (keyed fan-out over `Promise.allSettled`),
* the `GET /history/:symbols` handler's fan-out section (ordered fan-out),
* the screener route of `routes/screener` (type validation, count default,
  `slice(0, Math.min(count, 100))`),
* the cache configuration module (`CACHE_ENABLED`, `CACHE_TTL`),
* the cache-store behaviour (get / set with per-entry expiry).

JavaScript promises are modelled by their eventual settlement: a function
`settle : Nat → Settled V` gives the settled result of the i-th per-key
provider call, and a completion order is an explicit permutation of the
call indices.  Machine numbers that matter (`parseInt` results, counts,
times) are modelled as `Int`/`Nat`.
-/

namespace YahooFinance

/-- The settled state of one JavaScript promise, as observed through
`Promise.allSettled`: either fulfilled with a value or rejected with a
reason carrying a human-readable message. -/
inductive Settled (V : Type) where
  | fulfilled (value : V)
  | rejected (message : String)
deriving DecidableEq, Repr

/-- One slot of the keyed quote aggregate: the quote handler stores either
the fulfilled payload (`data[symbol] = result.value`) or an error object
carrying the failure message (`data[symbol] = { error: result.reason.message }`).
Source: routes quote handler, fulfilled/rejected branches of the
`results.forEach` loop. -/
inductive QuoteOutcome (V : Type) where
  | ok (value : V)
  | err (message : String)
deriving DecidableEq, Repr

/-- The outcome stored for one settled result in the quote handler's
`forEach` loop. -/
def settledOutcome {V : Type} : Settled V → QuoteOutcome V
  | .fulfilled v => .ok v
  | .rejected msg => .err msg

/-- JavaScript object assignment `m[k] = v` on an object represented as an
insertion-ordered association list: assigning to an existing key overwrites
its value in place, assigning to a fresh key appends it. -/
def objInsert {α : Type} (m : List (String × α)) (k : String) (v : α) :
    List (String × α) :=
  if m.any (fun q => q.1 == k) then
    m.map (fun q => if q.1 == k then (k, v) else q)
  else
    m ++ [(k, v)]

/-- The keyed aggregate built by the quote handler's `forEach` over the
`Promise.allSettled` results: `data[symbolList[index]]` is set to the ok
payload or the error object, in index order.  Source: the quote handler's
`results.forEach((result, index) => ...)`. -/
def quoteData {V : Type} (symbolList : List String) (results : List (Settled V)) :
    List (String × QuoteOutcome V) :=
  (symbolList.zip results).foldl
    (fun m p => objInsert m p.1 (settledOutcome p.2)) []

/-- The array returned by `Promise.allSettled` for `n` promises whose
eventual settlements are given by `settle`: one settled result per promise,
in promise-creation order. -/
def settledList {V : Type} (n : Nat) (settle : Nat → Settled V) : List (Settled V) :=
  (List.range n).map settle

/-- Event-level model of `Promise.allSettled`: starting from an array of
`n` unresolved slots, the promises complete in the order given by `order`,
and each completion writes its settled result into its own input-position
slot.  `order` being a permutation of `range n` means every promise
eventually settles exactly once. -/
def runAllSettled {V : Type} (n : Nat) (settle : Nat → Settled V) (order : List Nat) :
    List (Option (Settled V)) :=
  order.foldl (fun arr i => arr.set i (some (settle i))) (List.replicate n none)

/-- The `quotes` field of a fulfilled `yahooFinance.chart` result; the
other fields of the chart payload are irrelevant to the history handler,
which only ever reads `result.value.quotes`. -/
structure ChartResult (Q : Type) where
  quotes : List Q
deriving DecidableEq, Repr

/-- One slot of the ordered history aggregate: the history handler pushes
`result.value.quotes` for a fulfilled call and `null` for a rejected one.
Source: the history handler's `results.forEach` (fulfilled branch
`data.push(result.value.quotes)`, rejected branch `data.push(null)`). -/
def historySlot {Q : Type} : Settled (ChartResult Q) → Option (List Q)
  | .fulfilled v => some v.quotes
  | .rejected _ => none

/-- The ordered aggregate built by the history handler: one push per
settled result, in `results` order. -/
def historyData {Q : Type} (results : List (Settled (ChartResult Q))) :
    List (Option (List Q)) :=
  results.map historySlot

/-- Modelled from the spec: the Cache Store (realised by the external
`node-cache` package, which is configured but not implemented in this
repository).  Entries pair a key with a value and an absolute expiry
time. -/
structure CacheState (α : Type) where
  entries : List (String × α × Nat)

/-- Modelled from the spec: `get(key)` returns the stored value if present
and not expired, otherwise reports absent; it must not return a stale
(expired) entry. -/
def cacheGet {α : Type} (c : CacheState α) (k : String) (now : Nat) : Option α :=
  match c.entries.find? (fun e => e.1 == k) with
  | some e => if now < e.2.2 then some e.2.1 else none
  | none => none

/-- Modelled from the spec: `set(key, value, ttlSeconds)` stores the value
with expiry `now + ttlSeconds`, overwriting any existing entry for that
key unconditionally. -/
def cacheSet {α : Type} (c : CacheState α) (k : String) (v : α) (now ttl : Nat) :
    CacheState α :=
  ⟨(k, v, now + ttl) :: c.entries.filter (fun e => ¬(e.1 == k))⟩

/-- `symbols.split(",").map((s) => s.trim())` from the quote and history
handlers. -/
def splitSymbols (symbols : String) : List String :=
  (symbols.splitOn ",").map String.trim

/-- The aggregate type returned (and cached) by the quote handler. -/
abbrev QuoteAggregate (V : Type) := List (String × QuoteOutcome V)

/-- The `GET /quote/:symbols` handler.  Returns the JSON body, the cache
state after the request, and the number of provider (`quoteSummary`)
calls performed.  Mirrors the source control flow: derive the cache key
`quote:${symbols}` and the trimmed symbol list; when caching is enabled,
return a cached aggregate immediately; otherwise fan out one provider
call per symbol, join with `Promise.allSettled`, assemble the keyed
aggregate, cache it when caching is enabled, and return it. -/
def quoteHandler {V : Type} (enabled : Bool) (ttl : Nat)
    (c : CacheState (QuoteAggregate V)) (symbols : String)
    (settle : Nat → Settled V) (now : Nat) :
    QuoteAggregate V × CacheState (QuoteAggregate V) × Nat :=
  let cacheKey := "quote:" ++ symbols
  let symbolList := splitSymbols symbols
  match (if enabled then cacheGet c cacheKey now else none) with
  | some cached => (cached, c, 0)
  | none =>
      let results := settledList symbolList.length settle
      let data := quoteData symbolList results
      (data, if enabled then cacheSet c cacheKey data now ttl else c,
        symbolList.length)

/-- The cache key of the history handler:
`` `history:${symbols}:${period}:${interval}` ``. -/
def historyCacheKey (symbols period interval : String) : String :=
  "history:" ++ symbols ++ ":" ++ period ++ ":" ++ interval

/-- Decimal digit value of a digit character. -/
def digitVal (c : Char) : Nat := c.toNat - '0'.toNat

/-- The decimal digits of `n`, least significant first (empty for 0). -/
def natDigitsRev : Nat → List Char
  | 0 => []
  | n + 1 => Nat.digitChar ((n + 1) % 10) :: natDigitsRev ((n + 1) / 10)
decreasing_by exact Nat.div_lt_self (Nat.succ_pos n) (by decide)

/-- JavaScript rendering of a non-negative number in a template literal:
its decimal digit string. -/
def jsNatToString (n : Nat) : String :=
  if n = 0 then "0" else ⟨(natDigitsRev n).reverse⟩

/-- JavaScript rendering of an integer in a template literal: decimal
digits, with a leading minus sign for negative values. -/
def jsIntToString (i : Int) : String :=
  if i < 0 then "-" ++ jsNatToString i.natAbs else jsNatToString i.toNat

/-- The cache key of the screener route:
`` `screener:${type}:${count}` ``. -/
def screenerCacheKey (type : String) (count : Int) : String :=
  "screener:" ++ type ++ ":" ++ jsIntToString count

/-- Decimal value of the leading digit run of `cs`, or `none` when `cs`
does not start with a digit. -/
def leadingDigitsVal (cs : List Char) : Option Nat :=
  let ds := cs.takeWhile (fun c => c.isDigit)
  if ds.isEmpty then none
  else some (ds.foldl (fun a c => a * 10 + digitVal c) 0)

/-- JavaScript `parseInt` on a string, in base 10: skip leading
whitespace, read an optional sign and a leading run of decimal digits,
ignoring any trailing junk; `none` models `NaN` (no parseable digits).
The `0x` hexadecimal special case of `parseInt` is elided — no claim
depends on it. -/
def jsParseInt (s : String) : Option Int :=
  match s.data.dropWhile (fun c => c.isWhitespace) with
  | '-' :: cs => (leadingDigitsVal cs).map (fun n => -(n : Int))
  | '+' :: cs => (leadingDigitsVal cs).map (fun n => (n : Int))
  | cs => (leadingDigitsVal cs).map (fun n => (n : Int))

/-- `const CACHE_ENABLED = process.env.CACHE_ENABLED !== "false";`
from the cache configuration module, as a function of the environment
variable (`none` = variable unset). -/
def CACHE_ENABLED (env : Option String) : Bool :=
  env != some "false"

/-- `const CACHE_TTL = parseInt(process.env.CACHE_TTL) || 300;` from the
cache configuration module: `parseInt` of an unset variable is `NaN`, and
`||` replaces both `NaN` and `0` by the default 300. -/
def CACHE_TTL (env : Option String) : Int :=
  match env.bind jsParseInt with
  | none => 300
  | some 0 => 300
  | some k => k

/-- The valid screener types accepted by the screener route
(`validTypes` in routes/screener). -/
def validTypes : List String := ["day_gainers", "day_losers", "most_actives"]

/-- `const count = parseInt(req.query.count) || 25;` from the screener
route (`none` = query parameter absent; `parseInt(undefined)` is `NaN`). -/
def screenerCount (countQ : Option String) : Int :=
  match countQ.bind jsParseInt with
  | none => 25
  | some 0 => 25
  | some k => k

/-- JavaScript `l.slice(0, e)`: a non-negative end index takes the first
`e` elements; a negative end index counts from the end of the array. -/
def jsSliceTo {α : Type} (l : List α) (e : Int) : List α :=
  l.take (if e < 0 then ((l.length : Int) + e).toNat else e.toNat)

/-- A screener provider result: the `quotes` array that the route slices,
plus the rest of the payload, spread unchanged by `{ ...result }`. -/
structure ScreenerRes (Q R : Type) where
  rest : R
  quotes : List Q
deriving DecidableEq, Repr

/-- A screener route response: 400 with an error body, or 200 with a
screener result. -/
inductive ScreenerResp (Q R : Type) where
  | badRequest (msg : String)
  | ok (r : ScreenerRes Q R)
deriving DecidableEq, Repr

/-- The screener route of routes/screener.  Returns the response, the
cache state after the request, and the number of provider (`screener`)
calls performed.  Mirrors the source control flow: reject a type outside
`validTypes` with a 400 before any cache or provider interaction; parse
the count with default 25; derive the cache key; when caching is enabled,
return a cached result immediately; otherwise call the provider once,
slice its quotes to `Math.min(count, 100)`, cache the sliced result when
caching is enabled, and return it. -/
def screenerHandler {Q R : Type} (enabled : Bool) (ttl : Nat)
    (c : CacheState (ScreenerRes Q R)) (type : String) (countQ : Option String)
    (provider : ScreenerRes Q R) (now : Nat) :
    ScreenerResp Q R × CacheState (ScreenerRes Q R) × Nat :=
  if validTypes.contains type = false then
    (.badRequest ("Invalid screener type: " ++ type ++ ". Valid types are: " ++
      String.intercalate ", " validTypes), c, 0)
  else
    let count := screenerCount countQ
    let cacheKey := screenerCacheKey type count
    match (if enabled then cacheGet c cacheKey now else none) with
    | some cached => (.ok cached, c, 0)
    | none =>
        let sliced : ScreenerRes Q R :=
          { provider with quotes := jsSliceTo provider.quotes (min count 100) }
        (.ok sliced, if enabled then cacheSet c cacheKey sliced now ttl else c, 1)

/-! Helper lemmas about the fan-out -/

theorem foldl_set_length {V : Type} (settle : Nat → Settled V) :
    ∀ (order : List Nat) (arr : List (Option (Settled V))),
      (order.foldl (fun a i => a.set i (some (settle i))) arr).length = arr.length := by
  intro order
  induction order with
  | nil => intro arr; rfl
  | cons i rest ih =>
      intro arr
      simp only [List.foldl_cons, ih, List.length_set]

theorem foldl_set_getElem? {V : Type} (settle : Nat → Settled V) :
    ∀ (order : List Nat) (arr : List (Option (Settled V))) (j : Nat), j < arr.length →
      (order.foldl (fun a i => a.set i (some (settle i))) arr)[j]? =
        if j ∈ order then some (some (settle j)) else arr[j]? := by
  intro order
  induction order with
  | nil => intro arr j _; simp
  | cons i rest ih =>
      intro arr j hj
      simp only [List.foldl_cons]
      rw [ih (arr.set i (some (settle i))) j (by simpa using hj)]
      by_cases hmem : j ∈ rest
      · simp [hmem, List.mem_cons]
      · by_cases hij : i = j
        · subst hij
          simp [hmem, List.getElem?_set_self hj]
        · rw [List.getElem?_set_ne hij]
          simp [hmem, List.mem_cons, Ne.symm hij]

/-- `Promise.allSettled` is completion-order independent: whenever every
promise settles (the completion order is a permutation of the promise
indices), the joined array holds, at every index, the settled result of
that index's promise. -/
theorem runAllSettled_eq_settledList {V : Type} (n : Nat) (settle : Nat → Settled V)
    (order : List Nat) (hperm : List.Perm order (List.range n)) :
    runAllSettled n settle order = (settledList n settle).map some := by
  apply List.ext_getElem?
  intro j
  by_cases hj : j < n
  · rw [runAllSettled, foldl_set_getElem? settle order _ j (by simpa using hj)]
    have hmem : j ∈ order := hperm.mem_iff.mpr (List.mem_range.mpr hj)
    simp [hmem, settledList, List.getElem?_map, List.getElem?_range hj]
  · have h1 : (runAllSettled n settle order).length = n := by
      rw [runAllSettled, foldl_set_length]; simp
    have h2 : ((settledList n settle).map some).length = n := by
      simp [settledList]
    rw [List.getElem?_eq_none (by omega), List.getElem?_eq_none (by omega)]

/-! Helper lemmas about the keyed quote aggregate -/

theorem foldl_objInsert_eq_append {α : Type} :
    ∀ (ps m : List (String × α)),
      (ps.map Prod.fst).Nodup →
      (∀ a ∈ ps.map Prod.fst, ∀ b ∈ m.map Prod.fst, a ≠ b) →
      ps.foldl (fun acc q => objInsert acc q.1 q.2) m = m ++ ps := by
  intro ps
  induction ps with
  | nil => intro m _ _; simp
  | cons p rest ih =>
      intro m hnd hdisj
      have hnd' : (p.1 :: rest.map Prod.fst).Nodup := by
        simpa only [List.map_cons] using hnd
      have hnotin : m.any (fun q => q.1 == p.1) = false := by
        apply List.any_eq_false.mpr
        intro q hq
        simp only [beq_iff_eq]
        exact fun h =>
          hdisj p.1 (by simp) q.1 (List.mem_map_of_mem Prod.fst hq) h.symm
      have hstep : objInsert m p.1 p.2 = m ++ [p] := by
        rw [objInsert, hnotin]
        simp
      have hdisj' : ∀ a ∈ rest.map Prod.fst, ∀ b ∈ (m ++ [p]).map Prod.fst, a ≠ b := by
        intro a ha b hb
        rcases (by simpa using hb : b ∈ m.map Prod.fst ∨ b = p.1) with hbm | hbp
        · exact hdisj a (by simp [ha]) b hbm
        · subst hbp
          exact fun h => (List.nodup_cons.mp hnd').1 (h ▸ ha)
      simp only [List.foldl_cons, hstep]
      rw [ih (m ++ [p]) (List.nodup_cons.mp hnd').2 hdisj']
      simp

/-- With pairwise-distinct symbols, the JS object built by the quote
handler is exactly the input-ordered list of (symbol, outcome) pairs. -/
theorem quoteData_eq_of_nodup {V : Type} (symbolList : List String)
    (results : List (Settled V)) (hn : symbolList.Nodup)
    (hl : results.length = symbolList.length) :
    quoteData symbolList results =
      (symbolList.zip results).map (fun p => (p.1, settledOutcome p.2)) := by
  have h1 : quoteData symbolList results =
      ((symbolList.zip results).map (fun p => (p.1, settledOutcome p.2))).foldl
        (fun acc q => objInsert acc q.1 q.2) [] := by
    rw [List.foldl_map]
    rfl
  have hkeys : ((symbolList.zip results).map (fun p => (p.1, settledOutcome p.2))).map
      Prod.fst = symbolList := by
    rw [List.map_map]
    have : (Prod.fst ∘ fun p : String × Settled V => (p.1, settledOutcome p.2)) =
        Prod.fst := rfl
    rw [this, List.map_fst_zip _ _ (by omega)]
  rw [h1, foldl_objInsert_eq_append _ _ (by rw [hkeys]; exact hn)
    (by intro a _ b hb; simp at hb)]
  simp

/-! Claim theorems -/

/-- A concrete settlement assignment used in witnesses: the first call
succeeds with two data points, every other call fails. -/
def exampleSettle : Nat → Settled (ChartResult Nat)
  | 0 => .fulfilled ⟨[1, 2]⟩
  | _ => .rejected "Not found"

/-- Claim C1 (amended): the quote fan-out's aggregate has one slot per input
key position — each slot exactly one of Ok or Err — provided the symbols
in the request are pairwise distinct; the original claim's allowance of
duplicate symbols as independent keys fails because the handler stores
outcomes in a JS object keyed by symbol text (see the counterexample). -/
theorem quote_aggregate_shape {V : Type} (symbolList : List String)
    (results : List (Settled V)) (hn : symbolList.Nodup)
    (hl : results.length = symbolList.length) :
    (quoteData symbolList results).length = symbolList.length ∧
    ∀ i, i < symbolList.length →
      ∃ s r, symbolList[i]? = some s ∧ results[i]? = some r ∧
        (quoteData symbolList results)[i]? = some (s, settledOutcome r) ∧
        ((∃ v, settledOutcome r = QuoteOutcome.ok v) ∨
         (∃ m, settledOutcome r = QuoteOutcome.err m)) := by
  have hq := quoteData_eq_of_nodup symbolList results hn hl
  constructor
  · rw [hq]
    simp only [List.length_map, List.length_zip]
    omega
  · intro i hi
    have hi' : i < results.length := by omega
    refine ⟨symbolList[i], results[i], List.getElem?_eq_getElem hi,
      List.getElem?_eq_getElem hi', ?_, ?_⟩
    · have hz : (symbolList.zip results)[i]? = some (symbolList[i], results[i]) :=
        List.getElem?_zip_eq_some.mpr
          ⟨List.getElem?_eq_getElem hi, List.getElem?_eq_getElem hi'⟩
      rw [hq, List.getElem?_map, hz]
      rfl
    · cases hso : settledOutcome results[i] with
      | ok v => exact Or.inl ⟨v, rfl⟩
      | err m => exact Or.inr ⟨m, rfl⟩

/-- Claim C1 counterexample: with the legal duplicate key list
`["AAPL", "AAPL"]` (N = 2) and both calls fulfilled, the quote handler's
aggregate object has a single entry, not the claimed exactly-N outcomes:
`data[symbol]` silently overwrites the earlier duplicate. -/
theorem quote_duplicate_keys_collapse :
    (quoteData ["AAPL", "AAPL"]
        [Settled.fulfilled (1 : Nat), Settled.fulfilled 2]).length = 1 ∧
    ¬ (quoteData ["AAPL", "AAPL"]
        [Settled.fulfilled (1 : Nat), Settled.fulfilled 2]).length = 2 := by
  decide

/-- Claim C1 witness: a concrete two-symbol request with one success and one
failure has exactly two slots, one per input position. -/
theorem quote_aggregate_shape_witness :
    (quoteData ["AAPL", "BAD"]
        [Settled.fulfilled (1 : Nat), Settled.rejected "Not found"]).length =
      (["AAPL", "BAD"] : List String).length ∧
    ∀ i, i < (["AAPL", "BAD"] : List String).length →
      ∃ s r, (["AAPL", "BAD"] : List String)[i]? = some s ∧
        ([Settled.fulfilled (1 : Nat), Settled.rejected "Not found"])[i]? = some r ∧
        (quoteData ["AAPL", "BAD"]
          [Settled.fulfilled (1 : Nat), Settled.rejected "Not found"])[i]? =
            some (s, settledOutcome r) ∧
        ((∃ v, settledOutcome r = QuoteOutcome.ok v) ∨
         (∃ m, settledOutcome r = QuoteOutcome.err m)) :=
  quote_aggregate_shape ["AAPL", "BAD"]
    [Settled.fulfilled (1 : Nat), Settled.rejected "Not found"]
    (by decide) (by decide)

/-- Claim C2: for the ordered-mode history fan-out, for every completion
order of the per-key calls (any permutation of the indices), the
all-settled join equals the input-ordered settled list, and the i-th slot
of the assembled output holds the i-th symbol's outcome. -/
theorem history_order_preservation {Q : Type} (symbolList : List String)
    (settle : Nat → Settled (ChartResult Q)) (order : List Nat)
    (hperm : List.Perm order (List.range symbolList.length))
    (i : Nat) (hi : i < symbolList.length) :
    runAllSettled symbolList.length settle order
      = (settledList symbolList.length settle).map some ∧
    (historyData (settledList symbolList.length settle))[i]? =
      some (historySlot (settle i)) := by
  refine ⟨runAllSettled_eq_settledList _ _ _ hperm, ?_⟩
  simp [historyData, settledList, List.getElem?_map, List.getElem?_range hi]

/-- Claim C2 witness: symbols `["A", "B"]` where B's call completes before
A's (completion order `[1, 0]`): the output is still aligned with the
input order, slot 0 holding A's outcome. -/
theorem history_order_preservation_witness :
    runAllSettled (["A", "B"] : List String).length exampleSettle [1, 0]
      = (settledList (["A", "B"] : List String).length exampleSettle).map some ∧
    (historyData (settledList (["A", "B"] : List String).length exampleSettle))[0]? =
      some (historySlot (exampleSettle 0)) :=
  history_order_preservation ["A", "B"] exampleSettle [1, 0] (by decide) 0 (by decide)

/-- Claim C3 (amended): a failing per-key operation never aborts the
aggregation — the aggregate still has a slot for every key and the
aggregation is a total function (it cannot throw).  In keyed quote mode
the failing key's slot is an error object carrying the failure message;
in ordered history mode the failing key's slot is `null`, a marker that
does **not** carry the message (see the counterexample). -/
theorem per_key_failure_isolated :
    (∀ (V : Type) (symbolList : List String) (results : List (Settled V))
        (i : Nat) (msg : String), symbolList.Nodup →
        results.length = symbolList.length →
        results[i]? = some (Settled.rejected msg) →
        (quoteData symbolList results).length = symbolList.length ∧
        ∃ s, symbolList[i]? = some s ∧
          (quoteData symbolList results)[i]? = some (s, QuoteOutcome.err msg)) ∧
    (∀ (Q : Type) (results : List (Settled (ChartResult Q))) (i : Nat) (msg : String),
        results[i]? = some (Settled.rejected msg) →
        (historyData results).length = results.length ∧
        (historyData results)[i]? = some none) := by
  constructor
  · intro V symbolList results i msg hn hl hrej
    obtain ⟨hi', hri⟩ := List.getElem?_eq_some.mp hrej
    have hi : i < symbolList.length := by omega
    have hq := quoteData_eq_of_nodup symbolList results hn hl
    constructor
    · rw [hq]
      simp only [List.length_map, List.length_zip]
      omega
    · refine ⟨symbolList[i], List.getElem?_eq_getElem hi, ?_⟩
      have hz : (symbolList.zip results)[i]? = some (symbolList[i], results[i]) :=
        List.getElem?_zip_eq_some.mpr
          ⟨List.getElem?_eq_getElem hi, List.getElem?_eq_getElem hi'⟩
      rw [hq, List.getElem?_map, hz]
      simp [hri, settledOutcome]
  · intro Q results i msg hrej
    refine ⟨by simp [historyData], ?_⟩
    rw [historyData, List.getElem?_map, hrej]
    rfl

/-- Claim C3 counterexample: in ordered history mode the failing key's slot
is the bare `null`; two fan-outs whose only difference is the failure's
human-readable message produce identical aggregates, so the slot does not
carry the message, contrary to the claim. -/
theorem history_error_message_lost :
    historyData (Q := Nat) [Settled.rejected "Not found"] = [none] ∧
    historyData (Q := Nat) [Settled.rejected "Not found"] =
      historyData (Q := Nat) [Settled.rejected "HTTP 404 not found"] :=
  ⟨rfl, rfl⟩

/-- Claim C3 witness: a concrete quote fan-out `["AAPL", "BAD"]` whose
second call fails with "Not found", and a concrete history fan-out whose
first call fails: the failing quote slot carries the message, the failing
history slot is null, and no sibling is lost. -/
theorem per_key_failure_isolated_witness :
    ((quoteData ["AAPL", "BAD"]
        [Settled.fulfilled (1 : Nat), Settled.rejected "Not found"]).length =
      (["AAPL", "BAD"] : List String).length ∧
    ∃ s, (["AAPL", "BAD"] : List String)[1]? = some s ∧
      (quoteData ["AAPL", "BAD"]
        [Settled.fulfilled (1 : Nat), Settled.rejected "Not found"])[1]? =
          some (s, QuoteOutcome.err "Not found")) ∧
    ((historyData (Q := Nat)
        [Settled.rejected "Not found", Settled.fulfilled ⟨[7]⟩]).length =
      ([Settled.rejected "Not found", Settled.fulfilled ⟨[7]⟩] :
        List (Settled (ChartResult Nat))).length ∧
    (historyData (Q := Nat)
        [Settled.rejected "Not found", Settled.fulfilled ⟨[7]⟩])[0]? = some none) :=
  ⟨per_key_failure_isolated.1 Nat ["AAPL", "BAD"]
      [Settled.fulfilled (1 : Nat), Settled.rejected "Not found"] 1 "Not found"
      (by decide) (by decide) (by decide),
   per_key_failure_isolated.2 Nat
      [Settled.rejected "Not found", Settled.fulfilled ⟨[7]⟩] 0 "Not found"
      (by decide)⟩

/-! Cache-store and quote-handler helper lemmas -/

theorem cacheGet_cacheSet_self {α : Type} (c : CacheState α) (k : String) (v : α)
    (now ttl t : Nat) :
    cacheGet (cacheSet c k v now ttl) k t = if t < now + ttl then some v else none := by
  rw [cacheGet, cacheSet]
  simp

theorem quoteHandler_miss {V : Type} (ttl : Nat) (c : CacheState (QuoteAggregate V))
    (symbols : String) (settle : Nat → Settled V) (now : Nat)
    (hmiss : cacheGet c ("quote:" ++ symbols) now = none) :
    quoteHandler true ttl c symbols settle now =
      (quoteData (splitSymbols symbols)
          (settledList (splitSymbols symbols).length settle),
       cacheSet c ("quote:" ++ symbols)
         (quoteData (splitSymbols symbols)
           (settledList (splitSymbols symbols).length settle)) now ttl,
       (splitSymbols symbols).length) := by
  rw [quoteHandler]
  simp [hmiss]

theorem quoteHandler_hit {V : Type} (ttl : Nat) (c : CacheState (QuoteAggregate V))
    (symbols : String) (settle : Nat → Settled V) (now : Nat)
    (d : QuoteAggregate V)
    (hhit : cacheGet c ("quote:" ++ symbols) now = some d) :
    quoteHandler true ttl c symbols settle now = (d, c, 0) := by
  rw [quoteHandler]
  simp [hhit]

/-- All-rejected settlement assignment used in witnesses. -/
def allFail : Nat → Settled Nat := fun _ => Settled.rejected "Not found"

/-- All-fulfilled settlement assignment used in witnesses. -/
def allOk : Nat → Settled Nat := fun _ => Settled.fulfilled 7

/-- An empty quote cache used in witnesses. -/
def emptyCache : CacheState (QuoteAggregate Nat) := ⟨[]⟩

/-- Claim C4: on a cache miss the quote handler's cache write happens only
after the all-settled join — the stored entry is the complete aggregate
over all N settled outcomes (the handler returns it, reports N provider
calls, and a later in-TTL lookup retrieves exactly it).  The settlement
assignment is arbitrary, so an aggregate with any mix of Err outcomes —
including all keys failed — is stored and retrieved exactly like a fully
successful one. -/
theorem aggregate_cached_after_join {V : Type} (ttl : Nat)
    (c : CacheState (QuoteAggregate V)) (symbols : String)
    (settle : Nat → Settled V) (now t : Nat)
    (hmiss : cacheGet c ("quote:" ++ symbols) now = none)
    (ht : t < now + ttl) :
    (quoteHandler true ttl c symbols settle now).1 =
      quoteData (splitSymbols symbols)
        (settledList (splitSymbols symbols).length settle) ∧
    (quoteHandler true ttl c symbols settle now).2.2 =
      (splitSymbols symbols).length ∧
    cacheGet (quoteHandler true ttl c symbols settle now).2.1
        ("quote:" ++ symbols) t =
      some (quoteHandler true ttl c symbols settle now).1 := by
  rw [quoteHandler_miss ttl c symbols settle now hmiss]
  refine ⟨rfl, rfl, ?_⟩
  rw [cacheGet_cacheSet_self]
  simp [ht]

/-- Claim C4 witness: a two-key request in which **every** key fails is
cached after the join and retrieved like any other aggregate. -/
theorem aggregate_cached_after_join_witness :
    (quoteHandler true 300 emptyCache "AAPL,BAD" allFail 0).1 =
      quoteData (splitSymbols "AAPL,BAD")
        (settledList (splitSymbols "AAPL,BAD").length allFail) ∧
    (quoteHandler true 300 emptyCache "AAPL,BAD" allFail 0).2.2 =
      (splitSymbols "AAPL,BAD").length ∧
    cacheGet (quoteHandler true 300 emptyCache "AAPL,BAD" allFail 0).2.1
        ("quote:" ++ "AAPL,BAD") 299 =
      some (quoteHandler true 300 emptyCache "AAPL,BAD" allFail 0).1 :=
  aggregate_cached_after_join 300 emptyCache "AAPL,BAD" allFail 0 299 rfl (by decide)

/-- Claim C5: with caching enabled, after a first (miss) call, a second call
for the identical parameter tuple within the TTL window returns the
identical aggregate, leaves the store unchanged, and performs zero
provider calls — whatever the provider would have answered the second
time. -/
theorem cache_idempotent {V : Type} (ttl : Nat)
    (c : CacheState (QuoteAggregate V)) (symbols : String)
    (settle settle2 : Nat → Settled V) (now t : Nat)
    (hmiss : cacheGet c ("quote:" ++ symbols) now = none)
    (_hwindow : now ≤ t) (hfresh : t < now + ttl) :
    quoteHandler true ttl ((quoteHandler true ttl c symbols settle now).2.1)
        symbols settle2 t =
      ((quoteHandler true ttl c symbols settle now).1,
       (quoteHandler true ttl c symbols settle now).2.1, 0) := by
  rw [quoteHandler_miss ttl c symbols settle now hmiss]
  apply quoteHandler_hit
  rw [cacheGet_cacheSet_self]
  simp [hfresh]

/-- Claim C5 witness: two calls for `quote:AAPL` at times 0 and 10 with
TTL 300 — the second returns the first's aggregate with zero provider
calls even though the provider's answers have changed in between. -/
theorem cache_idempotent_witness :
    quoteHandler true 300 ((quoteHandler true 300 emptyCache "AAPL" allFail 0).2.1)
        "AAPL" allOk 10 =
      ((quoteHandler true 300 emptyCache "AAPL" allFail 0).1,
       (quoteHandler true 300 emptyCache "AAPL" allFail 0).2.1, 0) :=
  cache_idempotent 300 emptyCache "AAPL" allFail allOk 0 10 rfl
    (by decide) (by decide)

/-- Claim C8: with caching disabled the quote handler is a pure
pass-through: for every request it performs the full fan-out (N provider
calls), returns the freshly assembled aggregate — an expression
independent of the cache contents, so the store is never read — and
returns the cache state unchanged, so the store is never written.  Both
of two identical calls therefore each trigger their own fan-out. -/
theorem cache_disabled_pass_through {V : Type} (ttl : Nat)
    (c : CacheState (QuoteAggregate V)) (symbols : String)
    (settle : Nat → Settled V) (now : Nat) :
    quoteHandler false ttl c symbols settle now =
      (quoteData (splitSymbols symbols)
          (settledList (splitSymbols symbols).length settle),
       c, (splitSymbols symbols).length) := by
  rw [quoteHandler]
  simp

/-- Claim C6: the Cache Store's `get` never returns an expired entry — an
entry whose `expiresAt` satisfies `now ≥ expiresAt` reports absent; `set`
stores a value with expiry `now + ttlSeconds`; and the default TTL when
no `CACHE_TTL` configuration is provided is 300 seconds. -/
theorem cache_store_contract :
    (∀ (α : Type) (c : CacheState α) (k : String) (now : Nat) (v : α) (exp : Nat),
        c.entries.find? (fun e => e.1 == k) = some (k, v, exp) → exp ≤ now →
        cacheGet c k now = none) ∧
    (∀ (α : Type) (c : CacheState α) (k : String) (v : α) (now ttl t : Nat),
        cacheGet (cacheSet c k v now ttl) k t =
          if t < now + ttl then some v else none) ∧
    CACHE_TTL none = 300 := by
  refine ⟨?_, ?_, rfl⟩
  · intro α c k now v exp hfind hexp
    rw [cacheGet, hfind]
    simp only
    rw [if_neg (by omega)]
  · intro α c k v now ttl t
    exact cacheGet_cacheSet_self c k v now ttl t

/-- Claim C6 witness: an entry with `expiresAt = 10` is absent at
`now = 10`. -/
theorem cache_store_contract_witness :
    cacheGet (⟨[("quote:AAPL", 5, 10)]⟩ : CacheState Nat) "quote:AAPL" 10 = none :=
  cache_store_contract.1 Nat ⟨[("quote:AAPL", 5, 10)]⟩ "quote:AAPL" 10 5 10
    (by decide) (by decide)

/-- Claim C10: caching is enabled for every value of the `CACHE_ENABLED`
environment variable except the exact string "false"; the comparison is
case-sensitive and whole-string, so "FALSE", "False", "0", "no" and the
unset variable all leave caching enabled. -/
theorem cache_enabled_iff_not_false :
    (∀ env : Option String, CACHE_ENABLED env = true ↔ env ≠ some "false") ∧
    CACHE_ENABLED (some "FALSE") = true ∧ CACHE_ENABLED (some "False") = true ∧
    CACHE_ENABLED (some "0") = true ∧ CACHE_ENABLED (some "no") = true ∧
    CACHE_ENABLED none = true ∧ CACHE_ENABLED (some "false") = false := by
  refine ⟨?_, by decide, by decide, by decide, by decide, rfl, by decide⟩
  intro env
  rw [CACHE_ENABLED, bne_iff_ne]

/-! Decimal rendering: correctness and injectivity -/

/-- Value of a reversed (least-significant-first) digit string. -/
def valRev : List Char → Nat
  | [] => 0
  | c :: cs => digitVal c + 10 * valRev cs

theorem valRev_natDigitsRev : ∀ n, valRev (natDigitsRev n) = n := by
  intro n
  induction n using Nat.strong_induction_on with
  | _ n ih =>
      match n with
      | 0 => simp [natDigitsRev, valRev]
      | m + 1 =>
          simp only [natDigitsRev, valRev]
          rw [ih ((m + 1) / 10) (Nat.div_lt_self (Nat.succ_pos m) (by decide))]
          have hd : digitVal (Nat.digitChar ((m + 1) % 10)) = (m + 1) % 10 :=
            (by decide : ∀ d < 10, digitVal (Nat.digitChar d) = d)
              ((m + 1) % 10) (Nat.mod_lt _ (by decide))
          rw [hd, Nat.mod_add_div]

theorem natDigitsRev_digits : ∀ n, ∀ c ∈ natDigitsRev n, c.isDigit = true := by
  intro n
  induction n using Nat.strong_induction_on with
  | _ n ih =>
      match n with
      | 0 => intro c hc; simp [natDigitsRev] at hc
      | m + 1 =>
          intro c hc
          simp only [natDigitsRev, List.mem_cons] at hc
          rcases hc with hc | hc
          · exact hc ▸ (by decide : ∀ d < 10, (Nat.digitChar d).isDigit = true)
              ((m + 1) % 10) (Nat.mod_lt _ (by decide))
          · exact ih ((m + 1) / 10)
              (Nat.div_lt_self (Nat.succ_pos m) (by decide)) c hc

theorem jsNatToString_digits (n : Nat) :
    ∀ c ∈ (jsNatToString n).data, c.isDigit = true := by
  rw [jsNatToString]
  split
  · intro c hc
    simp at hc
    subst hc
    decide
  · intro c hc
    exact natDigitsRev_digits n c (List.mem_reverse.mp hc)

theorem jsNatToString_ne_nil (n : Nat) : (jsNatToString n).data ≠ [] := by
  rw [jsNatToString]
  split
  · decide
  · rename_i hn
    intro h
    have h2 : natDigitsRev n = [] := by
      have := congrArg List.reverse h
      simpa using this
    have h3 := valRev_natDigitsRev n
    rw [h2] at h3
    simp [valRev] at h3
    exact hn h3.symm

theorem jsNatToString_inj (a b : Nat) (h : jsNatToString a = jsNatToString b) :
    a = b := by
  have key : ∀ n, valRev (jsNatToString n).data.reverse = n := by
    intro n
    rw [jsNatToString]
    split
    · rename_i hn
      subst hn
      decide
    · show valRev ((natDigitsRev n).reverse).reverse = n
      rw [List.reverse_reverse]
      exact valRev_natDigitsRev n
  have h1 := key a
  rw [h, key b] at h1
  exact h1.symm

theorem minus_ne_jsNat (m : Nat) (s : String) : ("-" ++ s) ≠ jsNatToString m := by
  intro habs
  have hd : '-' :: s.data = (jsNatToString m).data := congrArg String.data habs
  have hmem : '-' ∈ (jsNatToString m).data := by
    rw [← hd]
    exact List.mem_cons_self _ _
  exact absurd (jsNatToString_digits m '-' hmem) (by decide)

theorem string_append_left_cancel (a s t : String) (h : a ++ s = a ++ t) : s = t := by
  apply String.ext
  have hd : a.data ++ s.data = a.data ++ t.data := congrArg String.data h
  exact List.append_cancel_left hd

theorem jsIntToString_inj (i j : Int) (h : jsIntToString i = jsIntToString j) :
    i = j := by
  by_cases hi : i < 0 <;> by_cases hj : j < 0 <;>
    simp only [jsIntToString, hi, hj, if_true, if_false, ite_true, ite_false] at h
  · have h2 := jsNatToString_inj _ _ (string_append_left_cancel "-" _ _ h)
    omega
  · exact absurd h (minus_ne_jsNat _ _)
  · exact absurd h.symm (minus_ne_jsNat _ _)
  · have h2 := jsNatToString_inj _ _ h
    omega

theorem jsIntToString_colon_free (i : Int) : ':' ∉ (jsIntToString i).data := by
  intro hmem
  rw [jsIntToString] at hmem
  split at hmem
  · have hm : ':' ∈ '-' :: (jsNatToString i.natAbs).data := hmem
    rcases List.mem_cons.mp hm with hc | hc
    · exact absurd hc (by decide)
    · exact absurd (jsNatToString_digits _ ':' hc) (by decide)
  · exact absurd (jsNatToString_digits _ ':' hmem) (by decide)

/-! Cache-key injectivity on colon-free components -/

theorem append_colon_cancel :
    ∀ (u1 t1 u2 t2 : List Char), ':' ∉ u1 → ':' ∉ u2 →
      u1 ++ ':' :: t1 = u2 ++ ':' :: t2 → u1 = u2 ∧ t1 = t2 := by
  intro u1
  induction u1 with
  | nil =>
      intro t1 u2 t2 _ hu2 h
      cases u2 with
      | nil => simpa using h
      | cons c u2' =>
          simp only [List.nil_append, List.cons_append, List.cons.injEq] at h
          exact absurd (h.1 ▸ List.mem_cons_self c u2') hu2
  | cons c u1' ih =>
      intro t1 u2 t2 hu1 hu2 h
      cases u2 with
      | nil =>
          simp only [List.nil_append, List.cons_append, List.cons.injEq] at h
          exact absurd (h.1 ▸ List.mem_cons_self c u1') hu1
      | cons d u2' =>
          simp only [List.cons_append, List.cons.injEq] at h
          obtain ⟨rfl, h2⟩ := h
          obtain ⟨h3, h4⟩ := ih t1 u2' t2
            (fun hm => hu1 (List.mem_cons_of_mem _ hm))
            (fun hm => hu2 (List.mem_cons_of_mem _ hm)) h2
          exact ⟨by rw [h3], h4⟩

theorem historyCacheKey_inj (s1 p1 i1 s2 p2 i2 : String)
    (hs1 : ':' ∉ s1.data) (hp1 : ':' ∉ p1.data)
    (hs2 : ':' ∉ s2.data) (hp2 : ':' ∉ p2.data)
    (h : historyCacheKey s1 p1 i1 = historyCacheKey s2 p2 i2) :
    s1 = s2 ∧ p1 = p2 ∧ i1 = i2 := by
  have hd : ("history" : String).data ++
        ':' :: (s1.data ++ ':' :: (p1.data ++ ':' :: i1.data)) =
      ("history" : String).data ++
        ':' :: (s2.data ++ ':' :: (p2.data ++ ':' :: i2.data)) := by
    have h0 : (historyCacheKey s1 p1 i1).data = (historyCacheKey s2 p2 i2).data :=
      congrArg String.data h
    simpa [historyCacheKey, List.append_assoc] using h0
  have h1 := List.append_cancel_left hd
  have h3 : s1.data ++ ':' :: (p1.data ++ ':' :: i1.data) =
      s2.data ++ ':' :: (p2.data ++ ':' :: i2.data) := (List.cons_eq_cons.mp h1).2
  obtain ⟨hs, h4⟩ := append_colon_cancel _ _ _ _ hs1 hs2 h3
  obtain ⟨hp, h5⟩ := append_colon_cancel _ _ _ _ hp1 hp2 h4
  exact ⟨String.ext hs, String.ext hp, String.ext h5⟩

theorem screenerCacheKey_inj (t1 t2 : String) (c1 c2 : Int)
    (ht1 : ':' ∉ t1.data) (ht2 : ':' ∉ t2.data)
    (h : screenerCacheKey t1 c1 = screenerCacheKey t2 c2) :
    t1 = t2 ∧ c1 = c2 := by
  have hd : ("screener" : String).data ++
        ':' :: (t1.data ++ ':' :: (jsIntToString c1).data) =
      ("screener" : String).data ++
        ':' :: (t2.data ++ ':' :: (jsIntToString c2).data) := by
    have h0 : (screenerCacheKey t1 c1).data = (screenerCacheKey t2 c2).data :=
      congrArg String.data h
    simpa [screenerCacheKey, List.append_assoc] using h0
  have h1 := List.append_cancel_left hd
  have h3 : t1.data ++ ':' :: (jsIntToString c1).data =
      t2.data ++ ':' :: (jsIntToString c2).data := (List.cons_eq_cons.mp h1).2
  obtain ⟨ht, h4⟩ := append_colon_cancel _ _ _ _ ht1 ht2 h3
  exact ⟨String.ext ht, jsIntToString_inj c1 c2 (String.ext h4)⟩

theorem validTypes_colon_free : ∀ t ∈ validTypes, ':' ∉ t.data := by
  decide

/-- Claim C7 (amended): cache keys are deterministic, order-sensitive
serialisations of the full parameter tuple, and on colon-free components
(every enumerated period/interval, every valid screener type, every real
ticker symbol, and every decimal count rendering) the key determines the
tuple: two requests map to the same key exactly when their tuples agree.
For components containing a literal ':' the flat serialisation can
collide (see the counterexample), which is the only restriction added to
the original claim. -/
theorem cache_key_faithful :
    (∀ s1 p1 i1 s2 p2 i2 : String,
        ':' ∉ s1.data → ':' ∉ p1.data → ':' ∉ i1.data →
        ':' ∉ s2.data → ':' ∉ p2.data → ':' ∉ i2.data →
        (historyCacheKey s1 p1 i1 = historyCacheKey s2 p2 i2 ↔
          (s1 = s2 ∧ p1 = p2 ∧ i1 = i2))) ∧
    (∀ t1 t2 : String, ∀ c1 c2 : Int, t1 ∈ validTypes → t2 ∈ validTypes →
        (screenerCacheKey t1 c1 = screenerCacheKey t2 c2 ↔
          (t1 = t2 ∧ c1 = c2))) := by
  constructor
  · intro s1 p1 i1 s2 p2 i2 hs1 hp1 _hi1 hs2 hp2 _hi2
    constructor
    · exact historyCacheKey_inj s1 p1 i1 s2 p2 i2 hs1 hp1 hs2 hp2
    · rintro ⟨rfl, rfl, rfl⟩
      rfl
  · intro t1 t2 c1 c2 ht1 ht2
    constructor
    · exact screenerCacheKey_inj t1 t2 c1 c2
        (validTypes_colon_free t1 ht1) (validTypes_colon_free t2 ht2)
    · rintro ⟨rfl, rfl⟩
      rfl

/-- Claim C7 counterexample: two requests with different parameter tuples —
symbols "A:1y" with period "1d", versus symbols "A" with period "1y" and
interval "1d:1d" — serialise to the same cache key, refuting the claim
that requests differing in a result-affecting option always map to
distinct keys. -/
theorem cache_key_collision :
    historyCacheKey "A:1y" "1d" "1d" = historyCacheKey "A" "1y" "1d:1d" ∧
    ("A:1y", "1d", "1d") ≠ (("A", "1y", "1d:1d") : String × String × String) := by
  decide

/-- Claim C7 witness: concrete colon-free history components and valid
screener types where key equality coincides with tuple equality. -/
theorem cache_key_faithful_witness :
    (historyCacheKey "AAPL,MSFT" "1y" "1d" = historyCacheKey "AAPL,MSFT" "5d" "1d" ↔
      ("AAPL,MSFT" = "AAPL,MSFT" ∧ "1y" = "5d" ∧ "1d" = "1d")) ∧
    (screenerCacheKey "day_gainers" 25 = screenerCacheKey "day_losers" 25 ↔
      ("day_gainers" = "day_losers" ∧ (25 : Int) = 25)) :=
  ⟨cache_key_faithful.1 "AAPL,MSFT" "1y" "1d" "AAPL,MSFT" "5d" "1d"
      (by decide) (by decide) (by decide) (by decide) (by decide) (by decide),
   cache_key_faithful.2 "day_gainers" "day_losers" 25 25 (by decide) (by decide)⟩

/-! Screener route lemmas -/

theorem jsSliceTo_length_le {α : Type} (l : List α) (e : Int) (he : 1 ≤ e) :
    ((jsSliceTo l e).length : Int) ≤ e := by
  rw [jsSliceTo, if_neg (by omega)]
  simp only [List.length_take]
  omega

theorem screenerHandler_invalid {Q R : Type} (enabled : Bool) (ttl : Nat)
    (c : CacheState (ScreenerRes Q R)) (type : String) (countQ : Option String)
    (provider : ScreenerRes Q R) (now : Nat) (hinv : type ∉ validTypes) :
    screenerHandler enabled ttl c type countQ provider now =
      (.badRequest ("Invalid screener type: " ++ type ++ ". Valid types are: " ++
        String.intercalate ", " validTypes), c, 0) := by
  rw [screenerHandler, if_pos]
  rw [Bool.eq_false_iff]
  intro habs
  exact hinv (List.elem_iff.mp habs)

theorem screenerHandler_fetch {Q R : Type} (enabled : Bool) (ttl : Nat)
    (c : CacheState (ScreenerRes Q R)) (type : String) (countQ : Option String)
    (provider : ScreenerRes Q R) (now : Nat) (htype : type ∈ validTypes)
    (hmiss : (if enabled then
        cacheGet c (screenerCacheKey type (screenerCount countQ)) now
      else none) = none) :
    screenerHandler enabled ttl c type countQ provider now =
      (.ok { provider with
          quotes := jsSliceTo provider.quotes (min (screenerCount countQ) 100) },
       if enabled then
         cacheSet c (screenerCacheKey type (screenerCount countQ))
           { provider with
              quotes := jsSliceTo provider.quotes (min (screenerCount countQ) 100) }
           now ttl
       else c, 1) := by
  rw [screenerHandler, if_neg]
  · simp only [hmiss]
  · rw [Bool.eq_false_iff]
    intro habs
    exact absurd (List.elem_eq_true_of_mem htype) (by simpa using habs)

/-- Claim C9 (amended): the screener route rejects every type outside
{day_gainers, day_losers, most_actives} with a 400 body and no provider
call and no cache interaction (the response and the unchanged cache state
do not depend on the store); for a valid type whose parsed count is
positive, the fresh-fetch path returns at most `min(count, 100)` quotes
(sliced exactly as `slice(0, Math.min(count, 100))`) with one provider
call; and the count defaults to 25 when the query parameter is absent or
parses to `NaN`.  The original claim's `min(count, 100)` bound fails for
negative parsed counts, where `slice` counts from the end of the array
(see the counterexample), so the bound is stated for `count ≥ 1`. -/
theorem screener_protocol_validation :
    (∀ (Q R : Type) (enabled : Bool) (ttl : Nat) (c : CacheState (ScreenerRes Q R))
        (type : String) (countQ : Option String) (provider : ScreenerRes Q R)
        (now : Nat), type ∉ validTypes →
        screenerHandler enabled ttl c type countQ provider now =
          (.badRequest ("Invalid screener type: " ++ type ++
            ". Valid types are: " ++ String.intercalate ", " validTypes), c, 0)) ∧
    (∀ (Q R : Type) (enabled : Bool) (ttl : Nat) (c : CacheState (ScreenerRes Q R))
        (type : String) (countQ : Option String) (provider : ScreenerRes Q R)
        (now : Nat), type ∈ validTypes → 1 ≤ screenerCount countQ →
        (if enabled then
            cacheGet c (screenerCacheKey type (screenerCount countQ)) now
          else none) = none →
        ∃ r : ScreenerRes Q R,
          (screenerHandler enabled ttl c type countQ provider now).1 =
            ScreenerResp.ok r ∧
          r.quotes = jsSliceTo provider.quotes (min (screenerCount countQ) 100) ∧
          ((r.quotes.length : Int) ≤ min (screenerCount countQ) 100) ∧
          (screenerHandler enabled ttl c type countQ provider now).2.2 = 1) ∧
    screenerCount none = 25 ∧
    (∀ s, jsParseInt s = none → screenerCount (some s) = 25) := by
  refine ⟨?_, ?_, rfl, ?_⟩
  · intro Q R enabled ttl c type countQ provider now hinv
    exact screenerHandler_invalid enabled ttl c type countQ provider now hinv
  · intro Q R enabled ttl c type countQ provider now htype hcount hmiss
    rw [screenerHandler_fetch enabled ttl c type countQ provider now htype hmiss]
    refine ⟨_, rfl, rfl, ?_, rfl⟩
    exact jsSliceTo_length_le provider.quotes (min (screenerCount countQ) 100)
      (by omega)
  · intro s hs
    rw [screenerCount]
    simp [hs]

/-- Claim C9 counterexample: the count query string "-3" parses to the
negative count -3 (neither absent nor NaN, so no default applies); on a
one-quote provider result the route returns `slice(0, min(-3, 100))`,
an empty quote list, whose length 0 is **not** at most
`min(count, 100) = -3` — the claimed bound fails for negative counts. -/
theorem screener_negative_count_breaks_bound :
    screenerCount (some "-3") = -3 ∧
    (screenerHandler (Q := Nat) (R := Unit) false 300 ⟨[]⟩ "day_gainers"
        (some "-3") ⟨(), [0]⟩ 0).1 =
      ScreenerResp.ok ⟨(), []⟩ ∧
    ¬ ((((jsSliceTo ([0] : List Nat)
          (min (screenerCount (some "-3")) 100)).length : Int)) ≤
        min (screenerCount (some "-3")) 100) := by
  refine ⟨by decide, ?_, by decide⟩
  decide

/-- Claim C9 witness: the invalid type "most_shorted" is rejected without
touching provider or cache; a valid request with count "5" over seven
quotes returns five of them with one provider call; and a non-numeric
count string falls back to the default 25. -/
theorem screener_protocol_validation_witness :
    (screenerHandler (Q := Nat) (R := Unit) true 300 ⟨[]⟩ "most_shorted" none
        ⟨(), [1]⟩ 0 =
      (.badRequest ("Invalid screener type: " ++ "most_shorted" ++
        ". Valid types are: " ++ String.intercalate ", " validTypes), ⟨[]⟩, 0)) ∧
    (∃ r : ScreenerRes Nat Unit,
      (screenerHandler false 300 ⟨[]⟩ "day_gainers" (some "5")
          ⟨(), [1, 2, 3, 4, 5, 6, 7]⟩ 0).1 = ScreenerResp.ok r ∧
      r.quotes = jsSliceTo (⟨(), [1, 2, 3, 4, 5, 6, 7]⟩ : ScreenerRes Nat Unit).quotes
        (min (screenerCount (some "5")) 100) ∧
      ((r.quotes.length : Int) ≤ min (screenerCount (some "5")) 100) ∧
      (screenerHandler false 300 ⟨[]⟩ "day_gainers" (some "5")
          ⟨(), [1, 2, 3, 4, 5, 6, 7]⟩ 0).2.2 = 1) ∧
    screenerCount (some "not-a-number") = 25 :=
  ⟨screener_protocol_validation.1 Nat Unit true 300 ⟨[]⟩ "most_shorted" none
      ⟨(), [1]⟩ 0 (by decide),
   screener_protocol_validation.2.1 Nat Unit false 300 ⟨[]⟩ "day_gainers"
      (some "5") ⟨(), [1, 2, 3, 4, 5, 6, 7]⟩ 0 (by decide) (by decide) rfl,
   screener_protocol_validation.2.2.2 "not-a-number" (by decide)⟩

end YahooFinance
